import Mathlib

/-!
# Verification of the keyword / co-occurrence analysis pipeline

Shallow embedding of the analysis functions of
`org_keyword_analysis5_総務省共起ありver.py`:

* `EXCLUDE_WORDS`, the stop list;
* `tokenize_text` / `tokenize_text_batch` (morphological Strategy A over an
  abstract analyzer, regex-fallback Strategy B);
* `calculate_word_importance_score`, the term scorer;
* the counting phase of `calculate_cooccurrence` (document frequencies and
  sorted-pair co-occurrence counts) and its empty-input guard;
* the graph-construction and guard branches of `create_cooccurrence_network`;
* `parse_search_query` and `count_keyword_occurrences` with a model of the
  regex counting they perform (literal patterns, `\b` word boundaries).

External libraries (MeCab, pandas, networkx, plotly, the regex engine) are
modelled explicitly: MeCab as an abstract analyzer that may raise, pandas
DataFrames as association lists of named columns, regex matching of the
specific patterns the code builds as direct scanning functions.
-/

namespace KeywordCount

/-- The stop list `EXCLUDE_WORDS` from the source (a Python `set` of strings;
modelled as a list, membership being all that is ever used). -/
def EXCLUDE_WORDS : List String :=
  [ "する", "ある", "なる", "いる", "できる", "れる", "られる", "よる", "おる", "いう", "もつ",
    "いく", "くる", "みる", "おこなう", "行う", "思う", "考える", "出る", "入る", "わかる",
    "こと", "もの", "ため", "ところ", "とき", "ひと", "人", "方", "とおり", "まま",
    "よう", "ほう", "ほか", "それ", "これ", "あれ", "どれ", "ここ", "そこ", "あそこ",
    "施策", "計画", "政策", "課", "部", "局", "室", "係", "担当", "実施", "推進",
    "事業", "業務", "取組", "取り組み", "対応", "実現", "確保", "向上", "促進",
    "強化", "充実", "整備", "活用", "支援", "提供", "構築", "形成", "創出",
    "および", "また", "ただし", "なお", "さらに", "ほか", "など", "等", "より",
    "から", "まで", "について", "に関する", "における", "による", "ための",
    "年", "月", "日", "第", "条", "項", "号", "章", "節", "款", "目",
    "あり", "なし", "でき", "こちら", "それぞれ", "各", "当", "本", "今", "次" ]

/-- `any('ァ' <= c <= 'ヶ' for c in word)` from the scorer. -/
def pyHasKatakana (word : String) : Bool :=
  word.toList.any fun c => decide ('ァ' ≤ c) && decide (c ≤ 'ヶ')

/-- `any('一' <= c <= '鿿' for c in word)` from the scorer. -/
def pyHasKanji (word : String) : Bool :=
  word.toList.any fun c => decide (0x4e00 ≤ c.toNat) && decide (c.toNat ≤ 0x9fff)

/-- `any(c.isalpha() and ord(c) < 128 for c in word)` from the scorer:
ASCII letters (`Char.isAlpha` in Lean is already ASCII-only; the `< 128`
bound is kept to mirror the source). -/
def pyHasAlpha (word : String) : Bool :=
  word.toList.any fun c => c.isAlpha && decide (c.toNat < 128)

/-- `calculate_word_importance_score(word, freq, total_docs)` from the source.
The sequence of overwriting `if` statements for `length_bonus` is kept as a
chain of `let` rebindings, mirroring the Python control flow.  `math.log` is
`Real.log`. -/
noncomputable def calculate_word_importance_score
    (word : String) (freq : Nat) (total_docs : Nat) : ℝ :=
  let base_score : ℝ := Real.log (freq + 1)
  let length_bonus0 : ℝ := 1.0
  let length_bonus1 : ℝ := if 4 ≤ word.length then 1.5 else length_bonus0
  let length_bonus2 : ℝ := if 6 ≤ word.length then 2.0 else length_bonus1
  let length_bonus : ℝ := if 8 ≤ word.length then 3.0 else length_bonus2
  let char_types : Nat :=
    (if pyHasKatakana word then 1 else 0) +
    (if pyHasKanji word then 1 else 0) +
    (if pyHasAlpha word then 1 else 0)
  let complexity_bonus : ℝ := if 2 ≤ char_types then 1.5 else 1.0
  let short_penalty : ℝ :=
    if word.length ≤ 2 then 0.2 else if word.length = 3 then 0.5 else 1.0
  base_score * length_bonus * complexity_bonus * short_penalty

/-- The scorer formula exactly as the specification words it
(`base = ln(f+1)`, banded `length_bonus`, `complexity_bonus`,
`short_penalty`), for comparison with the source function. -/
noncomputable def score_spec (word : String) (freq : Nat) : ℝ :=
  let base : ℝ := Real.log (freq + 1)
  let length_bonus : ℝ :=
    if word.length < 4 then 1.0
    else if word.length < 6 then 1.5
    else if word.length < 8 then 2.0
    else 3.0
  let mixes : Nat :=
    (if pyHasKatakana word then 1 else 0) +
    (if pyHasKanji word then 1 else 0) +
    (if pyHasAlpha word then 1 else 0)
  let complexity_bonus : ℝ := if 2 ≤ mixes then 1.5 else 1.0
  let short_penalty : ℝ :=
    if word.length ≤ 2 then 0.2 else if word.length = 3 then 0.5 else 1.0
  base * length_bonus * complexity_bonus * short_penalty

/-! ## Tokenizer

Strategy A works over an abstract morphological analyzer (MeCab).  A parsed
morpheme node carries a surface string and a feature list (the result of
`node.feature.split(',')`); the analyzer may raise, either while being
initialized (`MeCab.Tagger()` / `tagger.parse('')`) or while parsing one
text (`tagger.parseToNode(text)`). -/

/-- A MeCab morpheme node: `surface` and the comma-split `feature` list. -/
structure MNode where
  surface : String
  features : List String
deriving DecidableEq

/-- `features[0]` — the part of speech (the split of a nonempty string is
nonempty, so the default is never used for real analyzer output). -/
def posOf (n : MNode) : String := n.features.headD ""

/-- `features[6] if len(features) > 6 and features[6] != '*' else node.surface`. -/
def wordOf (n : MNode) : String :=
  let f6 := n.features.getD 6 "*"
  if f6 ≠ "*" then f6 else n.surface

/-- Abstract analyzer: whether construction/initialization succeeds and
what parsing each text yields (`Except.error` models a raised exception). -/
structure Analyzer where
  initOk : Bool
  parse : String → Except Unit (List MNode)

/-- Python `str.isdigit` restricted to ASCII digits (the only digits that
occur in this development; Python additionally accepts some Unicode digit
characters, which never affects the claims below). -/
def pyIsDigit (s : String) : Bool :=
  decide (0 < s.length) && s.toList.all Char.isDigit

/-- Accumulator of the Strategy-A node loop: the `words` and `compounds`
lists and the `prev_node` variable. -/
structure TokState where
  words : List String
  compounds : List String
  prev : Option MNode

/-- One iteration of the `while node:` loop of `tokenize_text` /
`tokenize_text_batch` (both loops are identical in the source).  The nested
Python conditionals are flattened: `word` is appended exactly when the POS
and the word filter pass, and a compound `prev_word + word` is additionally
appended exactly when, on top of that, compounds are enabled, the current
POS is noun, `prev_node` is a noun node whose word passes its own filter,
and the concatenation has length ≤ 10. -/
def tokStep (use_compound : Bool) (s : TokState) (node : MNode) : TokState :=
  let pos := posOf node
  let word := wordOf node
  let keep : Prop :=
    (pos = "名詞" ∨ pos = "動詞" ∨ pos = "形容詞") ∧
    word ≠ "" ∧ word ∉ EXCLUDE_WORDS ∧ 1 < word.length ∧ pyIsDigit word = false
  let newCompound : Option String :=
    if keep ∧ use_compound = true ∧ pos = "名詞" then
      match s.prev with
      | some prev_node =>
        if posOf prev_node = "名詞" then
          let prev_word := wordOf prev_node
          if prev_word ≠ "" ∧ prev_word ∉ EXCLUDE_WORDS ∧ 1 < prev_word.length ∧
              (prev_word ++ word).length ≤ 10 then
            some (prev_word ++ word)
          else none
        else none
      | none => none
    else none
  { words := if keep then s.words ++ [word] else s.words,
    compounds := s.compounds ++ newCompound.toList,
    prev := if pos = "名詞" then some node else none }

/-- The whole Strategy-A node loop, followed by
`words.extend(list(set(compounds)))` when compound synthesis is on.  The
arbitrary iteration order of the Python `set` is modelled by `List.dedup`;
only membership in the result is ever used downstream. -/
def processNodes (use_compound : Bool) (nodes : List MNode) : List String :=
  let s := nodes.foldl (tokStep use_compound) ⟨[], [], none⟩
  if use_compound then s.words ++ s.compounds.dedup else s.words

/-- Character classes of the Strategy-B regex
`[ァ-ヴー]+|[ぁ-ん]+|[一-龥]+|[a-zA-Z]+` (the four alternatives are disjoint
character sets, so `re.findall` returns the maximal runs of each class). -/
def charClass (c : Char) : Option Nat :=
  if ('ァ' ≤ c ∧ c ≤ 'ヴ') ∨ c = 'ー' then some 0
  else if 'ぁ' ≤ c ∧ c ≤ 'ん' then some 1
  else if '一' ≤ c ∧ c ≤ '龥' then some 2
  else if ('a' ≤ c ∧ c ≤ 'z') ∨ ('A' ≤ c ∧ c ≤ 'Z') then some 3
  else none

/-- `re.findall` of the Strategy-B pattern: scan the text, collecting
maximal runs of a single character class.  The accumulator is the current
run (class index, reversed characters). -/
def findRunsAux : List Char → Option (Nat × List Char) → List String
  | [], none => []
  | [], some st => [String.mk st.2.reverse]
  | c :: rest, none =>
    match charClass c with
    | none => findRunsAux rest none
    | some k => findRunsAux rest (some (k, [c]))
  | c :: rest, some st =>
    match charClass c with
    | some k2 =>
      if k2 = st.1 then findRunsAux rest (some (st.1, c :: st.2))
      else String.mk st.2.reverse :: findRunsAux rest (some (k2, [c]))
    | none => String.mk st.2.reverse :: findRunsAux rest none

/-- Strategy B (`tokenize_text` with `use_mecab=False`, after the NaN/empty
checks): regex-scan, then keep words not in the stop list and of
length > 1. -/
def tokenize_fallback (t : String) : List String :=
  (findRunsAux t.toList none).filter fun w =>
    decide (w ∉ EXCLUDE_WORDS) && decide (1 < w.length)

/-- `tokenize_text(text, use_mecab, use_compound)` from the source.
`text = none` models a NaN cell.  `mecab_available` is the module-level
`MECAB_AVAILABLE` flag.  A raise inside Strategy A (at initialization or
while parsing) is caught and the single text retried under Strategy B. -/
def tokenize_text (A : Analyzer) (use_mecab mecab_available use_compound : Bool)
    (text : Option String) : List String :=
  match text with
  | none => []
  | some t =>
    if t = "" then []
    else if use_mecab && mecab_available then
      if A.initOk then
        match A.parse t with
        | Except.ok nodes => processNodes use_compound nodes
        | Except.error _ => tokenize_fallback t
      else tokenize_fallback t
    else tokenize_fallback t

/-- The `for text in texts` loop of `tokenize_text_batch` inside the `try:`
block.  Returns the results appended so far and whether a parse raised
(aborting the loop).  NaN/empty texts append `[]` and continue without
touching the analyzer. -/
def batchLoop (A : Analyzer) (use_compound : Bool) :
    List (Option String) → List (List String) × Bool
  | [] => ([], false)
  | t :: rest =>
    match t with
    | none =>
      let r := batchLoop A use_compound rest
      ([] :: r.1, r.2)
    | some s =>
      if s = "" then
        let r := batchLoop A use_compound rest
        ([] :: r.1, r.2)
      else
        match A.parse s with
        | Except.error _ => ([], true)
        | Except.ok nodes =>
          let r := batchLoop A use_compound rest
          (processNodes use_compound nodes :: r.1, r.2)

/-- `tokenize_text_batch(texts, use_mecab, use_compound)` from the source.
The `results` list is initialized once; if Strategy A raises anywhere the
`except:` block appends a Strategy-B result for every text to the list of
already-appended partial results — it does not clear them.  The final
`else` branch of the source (no MeCab) performs, per text, exactly the
NaN/empty checks and regex filtering of `tokenize_text` with
`use_mecab=False`, so it is modelled by mapping that function. -/
def tokenize_text_batch (A : Analyzer) (use_mecab mecab_available use_compound : Bool)
    (texts : List (Option String)) : List (List String) :=
  if use_mecab && mecab_available then
    if A.initOk then
      let r := batchLoop A use_compound texts
      if r.2 then
        r.1 ++ texts.map (tokenize_text A false mecab_available use_compound)
      else r.1
    else
      texts.map (tokenize_text A false mecab_available use_compound)
  else
    texts.map (tokenize_text A false mecab_available use_compound)

/-! ## Co-occurrence aggregator (`calculate_cooccurrence`)

`word_counts = Counter()` and `cooccurrence_counts = defaultdict(int)` are
modelled as `PyCounter`: an insertion-ordered key list plus a total count
function (a Python dict has unique keys; only `keys` order, membership and
the counts are ever used). -/

/-- A Python `Counter` / `defaultdict(int)`. -/
structure PyCounter (α : Type) where
  keys : List α
  count : α → Nat

/-- The empty counter. -/
def PyCounter.empty {α : Type} : PyCounter α := ⟨[], fun _ => 0⟩

/-- `m[k] += 1`. -/
def PyCounter.bump {α : Type} [DecidableEq α] (m : PyCounter α) (k : α) : PyCounter α :=
  ⟨if k ∈ m.keys then m.keys else m.keys ++ [k],
   fun j => if j = k then m.count j + 1 else m.count j⟩

/-- All index pairs `i < j` of a list, in the order of the source's nested
loops `for i in range(n): for j in range(i+1, n)` (also the order of
`itertools.combinations(l, 2)`). -/
def pairsOf {α : Type} : List α → List (α × α)
  | [] => []
  | x :: xs => xs.map (fun y => (x, y)) ++ pairsOf xs

/-- Python `sorted` on strings: a stable sort by `≤` (lexicographic by code
point, which is the order `Mathlib` puts on `String`). -/
def sortStrings (l : List String) : List String :=
  l.insertionSort (fun a b => a ≤ b)

/-- Python `sorted([a, b])` for the canonical pair key. -/
def sortPair (a b : String) : String × String :=
  if a ≤ b then (a, b) else (b, a)

/-- One document of the counting loop on the morphological-analysis path
(source lines 504–519): skip empty term lists, deduplicate
(`list(set(words))`), bump each unique word's document frequency, and bump
each sorted pair when at least two unique words are present. -/
def countStepTok (acc : PyCounter String × PyCounter (String × String))
    (words : List String) : PyCounter String × PyCounter (String × String) :=
  if words = [] then acc
  else
    let unique_words := words.dedup
    let wc := unique_words.foldl PyCounter.bump acc.1
    let cc :=
      if 1 < unique_words.length then
        (pairsOf (sortStrings unique_words)).foldl PyCounter.bump acc.2
      else acc.2
    (wc, cc)

/-- One document of the counting loop on the AI-extraction path (source
lines 479–484): same dedup-then-count scheme, with
`itertools.combinations(sorted(unique_words), 2)` and no emptiness guards
(which are no-ops anyway). -/
def countStepAI (acc : PyCounter String × PyCounter (String × String))
    (words : List String) : PyCounter String × PyCounter (String × String) :=
  let unique_words := words.dedup
  (unique_words.foldl PyCounter.bump acc.1,
   (pairsOf (sortStrings unique_words)).foldl PyCounter.bump acc.2)

/-- The whole counting phase over the per-document term lists,
morphological-analysis path. -/
def countPhaseTok (docs : List (List String)) :
    PyCounter String × PyCounter (String × String) :=
  docs.foldl countStepTok (PyCounter.empty, PyCounter.empty)

/-- The whole counting phase over the per-document term lists,
AI-extraction path. -/
def countPhaseAI (docs : List (List String)) :
    PyCounter String × PyCounter (String × String) :=
  docs.foldl countStepAI (PyCounter.empty, PyCounter.empty)

/-- `calculate_cooccurrence(df, min_count, top_n_words)` (tokenizer path,
no sampling).  The input DataFrame is modelled by its `content_text`
column; `extract` stands for the batched tokenization
(`tokenize_text_batch` over batches of 100, which concatenates to a single
map) and `selectTop` for the importance-score sort of the eligible
`(word, count)` list (descending real-valued scores, which a later stage
consumes; it is kept abstract here because no claim depends on the
ordering).  The `top_n_words` truncation and every guard of the source are
explicit. -/
def calculate_cooccurrence
    (extract : List (Option String) → List (List String))
    (selectTop : List (String × Nat) → List (String × Nat))
    (texts : List (Option String)) (min_count top_n_words : Nat) :
    List (String × Nat) × List ((String × String) × Nat) × List String :=
  if texts.length = 0 then ([], [], [])
  else
    let allWords := extract texts
    let counters := countPhaseTok allWords
    let wc := counters.1
    let cc := counters.2
    if wc.keys = [] then ([], [], [])
    else
      let eligible := (wc.keys.filter fun w => decide (min_count ≤ wc.count w)).map
        fun w => (w, wc.count w)
      let top_words := ((selectTop eligible).take top_n_words).map Prod.fst
      let filtered_cooccurrence :=
        (cc.keys.filter fun p =>
            decide (p.1 ∈ top_words) && decide (p.2 ∈ top_words) &&
            decide (min_count ≤ cc.count p)).map
          fun p => (p, cc.count p)
      let filtered_word_counts := top_words.map fun w => (w, wc.count w)
      (filtered_word_counts, filtered_cooccurrence, top_words)

/-! ## Network builder (`create_cooccurrence_network`)

The NetworkX graph is modelled by its node list (term, document count) and
edge list.  Community detection (python-louvain, or the fallback
all-zero partition) and the layout/Plotly trace construction are external
library work: they are taken as parameters, since every claim below
depends only on the guard branches and on the constructed graph. -/

/-- An edge as `G.add_edge(word1, word2, weight=…, raw_count=…)` records
it. -/
structure EdgeData where
  node1 : String
  node2 : String
  weight : ℚ
  raw_count : Nat
deriving DecidableEq

/-- Membership lookup in the `word_counts` dict (unique keys in the
pipeline). -/
def lookupCount (wc : List (String × Nat)) (w : String) : Option Nat :=
  (wc.find? fun p => decide (p.1 = w)).map Prod.snd

/-- Lines 577–582: `denominator = word_counts[w1] + word_counts[w2] - count`
(a Python int, possibly negative); `weight = count / denominator` if the
denominator is positive, else `0`. -/
def edgeWeight (f1 f2 cnt : Nat) : ℚ :=
  if 0 < (f1 : ℤ) + (f2 : ℤ) - (cnt : ℤ) then
    (cnt : ℚ) / ((f1 : ℚ) + (f2 : ℚ) - (cnt : ℚ))
  else 0

/-- The edge loop (lines 574–584): one edge per co-occurrence entry whose
endpoints are both in `word_counts`.  (The co-occurrence dict is keyed by
canonically sorted pairs, so no two entries denote the same unordered
pair.) -/
def buildEdges (word_counts : List (String × Nat))
    (cooccurrence_data : List ((String × String) × Nat)) : List EdgeData :=
  cooccurrence_data.filterMap fun pc =>
    match lookupCount word_counts pc.1.1, lookupCount word_counts pc.1.2 with
    | some f1, some f2 => some (EdgeData.mk pc.1.1 pc.1.2 (edgeWeight f1 f2 pc.2) pc.2)
    | _, _ => none

/-- The node loop (lines 569–571): one node per `top_words` entry present
in `word_counts`, carrying its document count. -/
def buildNodes (word_counts : List (String × Nat)) (top_words : List String) :
    List (String × Nat) :=
  top_words.filterMap fun w => (lookupCount word_counts w).map fun c => (w, c)

/-- The modelled NetworkX graph. -/
structure NXGraph where
  nodes : List (String × Nat)
  edges : List EdgeData
deriving DecidableEq

/-- The explicitly zeroed statistics dict of the no-nodes guard
(line 616). -/
def zeroStats : List (String × ℚ) :=
  [("num_nodes", 0), ("num_edges", 0), ("num_communities", 0),
   ("avg_degree", 0), ("density", 0)]

/-- `G.degree()` of one node: the number of incident edges. -/
def degreeOf (G : NXGraph) (v : String) : Nat :=
  (G.edges.filter fun e => decide (e.node1 = v) || decide (e.node2 = v)).length

/-- The statistics dict of the full branch (lines 741–747):
`num_communities` counts the distinct community ids of the partition,
`avg_degree` divides the degree sum by the node count, `density` is
`nx.density` (`2m / (n(n-1))`) guarded by `len(G.nodes()) > 1`. -/
def statsOf (G : NXGraph) (partition : List (String × Nat)) : List (String × ℚ) :=
  let n := G.nodes.length
  [("num_nodes", (n : ℚ)),
   ("num_edges", (G.edges.length : ℚ)),
   ("num_communities", ((partition.map Prod.snd).dedup.length : ℚ)),
   ("avg_degree", if 0 < n then
      ((G.nodes.map fun p => degreeOf G p.1).sum : ℚ) / (n : ℚ) else 0),
   ("density", if 1 < n then
      (2 * (G.edges.length : ℚ)) / ((n : ℚ) * ((n : ℚ) - 1)) else 0)]

/-- `create_cooccurrence_network(word_counts, cooccurrence_data, top_words,
…)`.  The first guard (lines 561–563) returns empty renderables, an EMPTY
statistics dict, an empty graph and an empty partition; the no-nodes guard
(lines 615–616) returns the zeroed statistics dict.  `communityDetect`
abstracts the louvain call with its fallbacks, `render` abstracts layout
computation plus Plotly trace construction. -/
def create_cooccurrence_network {Trace : Type}
    (communityDetect : NXGraph → List (String × Nat))
    (render : NXGraph → List (String × Nat) → List Trace)
    (word_counts : List (String × Nat))
    (cooccurrence_data : List ((String × String) × Nat))
    (top_words : List String) :
    List Trace × List (String × ℚ) × NXGraph × List (String × Nat) :=
  if word_counts = [] ∨ top_words = [] then
    ([], [], NXGraph.mk [] [], [])
  else
    let G : NXGraph :=
      NXGraph.mk (buildNodes word_counts top_words)
        (buildEdges word_counts cooccurrence_data)
    let partition := communityDetect G
    if G.nodes = [] then ([], zeroStats, G, partition)
    else (render G partition, statsOf G partition, G, partition)

/-! ## Search query utility
(`parse_search_query`, `count_keyword_occurrences`)

The regex engine is modelled for exactly the patterns the source builds:
`re.escape(kw)` (a literal), optionally wrapped in `\b…\b` word
boundaries.  `\w` (word character) is modelled for ASCII alphanumerics,
underscore, kana and CJK ideographs — the repertoire relevant to this
code; counting is non-overlapping left-to-right, as in `str.count` /
`pandas.Series.str.count`. -/

/-- Match kind of one search sub-term: double-quoted exact
(word-boundary regex) or plain substring. -/
inductive MatchKind where
  | exactKw : MatchKind
  | plainKw : MatchKind
deriving DecidableEq

/-- Search combination kind. -/
inductive SearchKind where
  | AND : SearchKind
  | OR : SearchKind
  | SINGLE : SearchKind
deriving DecidableEq

/-- Python `sub in s` (substring containment). -/
def pyContains (s sub : String) : Bool := decide (List.IsInfix sub.toList s.toList)

/-- Python `p[1:-1]`. -/
def stripQuotes (p : String) : String := String.mk ((p.toList.drop 1).dropLast)

/-- Python `p.strip()`: remove leading and trailing whitespace. -/
def pyStrip (s : String) : String :=
  String.mk (((s.toList.dropWhile Char.isWhitespace).reverse.dropWhile
    Char.isWhitespace).reverse)

/-- Python `s.startswith(pre)`. -/
def pyStartsWith (s pre : String) : Bool := pre.toList.isPrefixOf s.toList

/-- Python `s.endswith(suf)`. -/
def pyEndsWith (s suf : String) : Bool := decide (List.IsSuffix suf.toList s.toList)

/-- Python `str.split(sep)` scanning: `skip > 0` means the scanner is
inside a just-matched separator; a fresh segment starts after it. -/
def splitAux (sep : List Char) : Nat → List Char → List Char → List (List Char)
  | _, [], acc => [acc.reverse]
  | Nat.succ n, _ :: rest, acc => splitAux sep n rest acc
  | 0, c :: rest, acc =>
    if sep.isPrefixOf (c :: rest) then
      acc.reverse :: splitAux sep (sep.length - 1) rest []
    else splitAux sep 0 rest (c :: acc)

/-- Python `s.split(sep)` for a nonempty separator (the only use here is
`' AND '` / `' OR '`; Python raises on an empty separator). -/
def pySplit (s sep : String) : List String :=
  if sep.toList = [] then [s]
  else (splitAux sep.toList 0 s.toList []).map String.mk

/-- One `part` of the AND/OR branches of `parse_search_query`: strip, then
classify by surrounding double quotes. -/
def parsePart (p : String) : MatchKind × String :=
  let q := pyStrip p
  if pyStartsWith q "\"" && pyEndsWith q "\"" then (MatchKind.exactKw, stripQuotes q)
  else (MatchKind.plainKw, q)

/-- `parse_search_query(query)` from the source: `' AND '` is checked
first, then `' OR '`, else a single term (quoted or plain, unstripped). -/
def parse_search_query (query : String) : SearchKind × List (MatchKind × String) :=
  if pyContains query " AND " then
    (SearchKind.AND, (pySplit query " AND ").map parsePart)
  else if pyContains query " OR " then
    (SearchKind.OR, (pySplit query " OR ").map parsePart)
  else if pyStartsWith query "\"" && pyEndsWith query "\"" then
    (SearchKind.SINGLE, [(MatchKind.exactKw, stripQuotes query)])
  else
    (SearchKind.SINGLE, [(MatchKind.plainKw, query)])

/-- Python's `\w` on the character repertoire used here. -/
def isWordChar (c : Char) : Bool :=
  c.isAlphanum || c == '_' ||
  (decide (0x3040 ≤ c.toNat) && decide (c.toNat ≤ 0x30FF)) ||
  (decide (0x4E00 ≤ c.toNat) && decide (c.toNat ≤ 0x9FFF))

/-- Word-ness of an optional character (edges of the string count as
non-word). -/
def isWordOpt : Option Char → Bool
  | none => false
  | some c => isWordChar c

/-- `\b`: a word boundary stands between two positions of different
word-ness. -/
def wordBoundary (a b : Option Char) : Bool := isWordOpt a != isWordOpt b

/-- Does `\bKW\b` match at the current position?  `prev` is the character
before the position; the boundary after the match compares the last
character of `kw` with the character following it. -/
def matchAt (kw : List Char) (prev : Option Char) (cs : List Char) : Bool :=
  kw.isPrefixOf cs && wordBoundary prev cs.head? && wordBoundary kw.getLast? cs[kw.length]?

/-- Non-overlapping left-to-right count of `\bKW\b` matches.  `skip > 0`
means the scanner is inside a previous match (no new match may start
there); after a match of length `L` the scan resumes `L` characters
later. -/
def countExactAux (kw : List Char) : Option Char → Nat → List Char → Nat
  | _, _, [] => 0
  | _, Nat.succ n, c :: rest => countExactAux kw (some c) n rest
  | prev, 0, c :: rest =>
    if matchAt kw prev (c :: rest) then
      1 + countExactAux kw (some c) (kw.length - 1) rest
    else countExactAux kw (some c) 0 rest

/-- `df[col].str.count(r'\b' + re.escape(kw) + r'\b')` on one cell.  (An
empty exact pattern can only come from the query `""` and is modelled as
0 matches; no claim involves it.) -/
def pyCountExact (text kw : String) : Nat :=
  if kw.toList = [] then 0 else countExactAux kw.toList none 0 text.toList

/-- Non-overlapping left-to-right count of plain substring matches. -/
def countSubAux (kw : List Char) : Nat → List Char → Nat
  | _, [] => 0
  | Nat.succ n, _ :: rest => countSubAux kw n rest
  | 0, c :: rest =>
    if kw.isPrefixOf (c :: rest) then 1 + countSubAux kw (kw.length - 1) rest
    else countSubAux kw 0 rest

/-- `df[col].str.count(re.escape(kw))` on one cell (Python counts
`len + 1` matches of an empty pattern). -/
def pyCountSub (text kw : String) : Nat :=
  if kw.toList = [] then text.length + 1 else countSubAux kw.toList 0 text.toList

/-- Per-sub-term count, by match kind. -/
def countFor : MatchKind → String → String → Nat
  | MatchKind.exactKw, text, kw => pyCountExact text kw
  | MatchKind.plainKw, text, kw => pyCountSub text kw

/-- The per-row effect of `count_keyword_occurrences`: the final
`keyword_count` and `has_keyword` cell values for one text.  All the
source's column operations are element-wise, so the AND branch's running
`+=` / `&=` and its final `df.loc[~has_keyword] = 0` masking reduce to
this row computation. -/
def rowKeyword (sk : SearchKind) (kws : List (MatchKind × String)) (text : String) :
    Nat × Bool :=
  match sk with
  | SearchKind.SINGLE =>
    match kws with
    | [] => (0, false)
    | (mk0, kw) :: _ =>
      let c := countFor mk0 text kw
      (c, decide (0 < c))
  | SearchKind.AND =>
    let r := kws.foldl
      (fun acc mk0 =>
        (acc.1 + countFor mk0.1 text mk0.2,
         acc.2 && decide (0 < countFor mk0.1 text mk0.2)))
      (0, true)
    (if r.2 then r.1 else 0, r.2)
  | SearchKind.OR =>
    kws.foldl
      (fun acc mk0 =>
        (acc.1 + countFor mk0.1 text mk0.2,
         acc.2 || decide (0 < countFor mk0.1 text mk0.2)))
      (0, false)

/-! ### DataFrame model for `count_keyword_occurrences` -/

/-- A DataFrame cell: a text cell (with `none` = NaN), or one of the cell
types the function itself creates. -/
inductive Cell where
  | strC : Option String → Cell
  | natC : Nat → Cell
  | boolC : Bool → Cell
deriving DecidableEq

/-- A DataFrame: named columns in order. -/
abbrev Table := List (String × List Cell)

/-- `df[name]`, `none` when the column is missing (Python `KeyError`). -/
def getCol (df : Table) (name : String) : Option (List Cell) :=
  (df.find? fun p => decide (p.1 = name)).map Prod.snd

/-- Does a column exist? -/
def hasCol (df : Table) (name : String) : Bool :=
  df.any fun p => decide (p.1 = name)

/-- `df[name] = col`: replace in place when the column exists, else append
at the end (pandas semantics). -/
def setCol (df : Table) (name : String) (col : List Cell) : Table :=
  if hasCol df name then
    df.map fun p => if p.1 = name then (name, col) else p
  else df ++ [(name, col)]

/-- `df.drop(name, axis=1)`. -/
def dropCol (df : Table) (name : String) : Table :=
  df.filter fun p => decide (p.1 ≠ name)

/-- `fillna('')` on one cell. -/
def fillnaEmpty : Cell → Cell
  | Cell.strC none => Cell.strC (some "")
  | c => c

/-- The text a filled cell contributes to counting (non-text cells yield
no matches). -/
def textOf : Cell → String
  | Cell.strC (some s) => s
  | _ => ""

/-- `count_keyword_occurrences(df, keyword)` from the source: parse the
query, create the temporary `content_text_safe` column, compute the
`keyword_count` and `has_keyword` columns row-wise (per the branch for the
query's search kind), and drop the temporary column.  Returns `none` when
`content_text` is missing (the source would raise `KeyError`). -/
def count_keyword_occurrences (df : Table) (keyword : String) : Option Table :=
  match getCol df "content_text" with
  | none => none
  | some ct =>
    let q := parse_search_query keyword
    let safeCells := ct.map fillnaEmpty
    let df1 := setCol df "content_text_safe" safeCells
    let rows := (safeCells.map textOf).map (rowKeyword q.1 q.2)
    let df2 := setCol df1 "keyword_count" (rows.map fun r => Cell.natC r.1)
    let df3 := setCol df2 "has_keyword" (rows.map fun r => Cell.boolC r.2)
    some (dropCol df3 "content_text_safe")

/-! ## Concrete analyzers used in the theorems below -/

/-- An analyzer that initializes, parses the text `"x"` successfully and
raises on any other text: it models MeCab raising partway through a batch. -/
def failSecondAnalyzer : Analyzer where
  initOk := true
  parse := fun s => if s = "x" then Except.ok [] else Except.error ()

/-- An analyzer yielding two adjacent noun morphemes `取り` and `組み`:
each passes the per-word filter, but their synthesized compound is the
stop-listed word `取り組み`. -/
def adjacentNounAnalyzer : Analyzer where
  initOk := true
  parse := fun _ => Except.ok [MNode.mk "取り" ["名詞"], MNode.mk "組み" ["名詞"]]

/-! ## Scorer claims (C4, C9) -/

/-- C4: for every term string `w` and document frequency `f`, the source's
`calculate_word_importance_score(w, f, total_docs)` equals
`ln(f+1) * length_bonus * complexity_bonus * short_penalty` with the bonus
bands exactly as the specification states them; the function is a pure
function of its arguments (it is a Lean function) and `total_docs` plays no
role. -/
theorem calculate_word_importance_score_eq_spec
    (word : String) (freq : Nat) (total_docs : Nat) :
    calculate_word_importance_score word freq total_docs = score_spec word freq := by
  unfold calculate_word_importance_score score_spec
  dsimp only
  have h : (if 8 ≤ word.length then (3.0 : ℝ)
      else if 6 ≤ word.length then 2.0
      else if 4 ≤ word.length then 1.5 else 1.0) =
      (if word.length < 4 then (1.0 : ℝ)
      else if word.length < 6 then 1.5
      else if word.length < 8 then 2.0 else 3.0) := by
    split_ifs <;> first | rfl | (exfalso; omega)
  rw [h]

/-- C9: `calculate_word_importance_score` ignores its `total_docs` argument:
the score depends only on the term string and its document frequency. -/
theorem calculate_word_importance_score_ignores_total_docs
    (word : String) (freq : Nat) (n1 n2 : Nat) :
    calculate_word_importance_score word freq n1 =
      calculate_word_importance_score word freq n2 := rfl

/-! ## Tokenizer claims (C1, C3) -/

/-- C1 (against the claim): with an analyzer that succeeds on the first
text of the batch and raises on the second, `tokenize_text_batch` returns
THREE term-lists for a two-text input: the partial Strategy-A result for
the first text is kept, and the `except:` block then appends a Strategy-B
result for every text.  The claim's "exactly one term-sequence per input
text" fails precisely in the raises-partway case it singles out. -/
theorem tokenize_text_batch_keeps_partial_results_on_midbatch_raise :
    tokenize_text_batch failSecondAnalyzer true true true [some "x", some "y"] =
      [[], [], []] ∧
    ([some "x", some "y"] : List (Option String)).length = 2 := by
  constructor
  · rfl
  · rfl

/-- Helper: a word appended by one loop iteration passes the stop-list and
length filter. -/
theorem tokStep_mem_words {use_compound : Bool} {s : TokState} {n : MNode} {w : String}
    (hw : w ∈ (tokStep use_compound s n).words) :
    w ∈ s.words ∨ (w ∉ EXCLUDE_WORDS ∧ 1 < w.length) := by
  unfold tokStep at hw
  dsimp only at hw
  split at hw
  · rcases List.mem_append.mp hw with h | h
    · exact Or.inl h
    · rename_i hkeep
      rcases List.mem_singleton.mp h with rfl
      exact Or.inr ⟨hkeep.2.2.1, hkeep.2.2.2.1⟩
  · exact Or.inl hw

/-- Helper: a compound appended by one loop iteration has length in
`(3, 10]` (both parts have length ≥ 2 and the concatenation is bounded). -/
theorem tokStep_mem_compounds {use_compound : Bool} {s : TokState} {n : MNode} {c : String}
    (hc : c ∈ (tokStep use_compound s n).compounds) :
    c ∈ s.compounds ∨ (use_compound = true ∧ 3 < c.length ∧ c.length ≤ 10) := by
  unfold tokStep at hc
  dsimp only at hc
  rcases List.mem_append.mp hc with h | h
  · exact Or.inl h
  · right
    split at h
    · rename_i hif
      rcases hs : s.prev with _ | prev_node
      · rw [hs] at h; simp at h
      · rw [hs] at h
        dsimp only at h
        split at h
        · split at h
          · rename_i hprev
            rcases List.mem_singleton.mp (by simpa using h) with rfl
            refine ⟨hif.2.1, ?_, hprev.2.2.2⟩
            rw [String.length_append]
            have h1 := hprev.2.2.1
            have h2 := hif.1.2.2.2.1
            omega
          · simp at h
        · simp at h
    · simp at h

/-- Helper: the invariant holds of the whole node-loop fold. -/
theorem foldl_tokStep_invariant (use_compound : Bool) (nodes : List MNode) :
    ∀ s : TokState,
      (∀ w ∈ s.words, w ∉ EXCLUDE_WORDS ∧ 1 < w.length) →
      (∀ c ∈ s.compounds, use_compound = true ∧ 3 < c.length ∧ c.length ≤ 10) →
      (∀ w ∈ (nodes.foldl (tokStep use_compound) s).words,
          w ∉ EXCLUDE_WORDS ∧ 1 < w.length) ∧
      (∀ c ∈ (nodes.foldl (tokStep use_compound) s).compounds,
          use_compound = true ∧ 3 < c.length ∧ c.length ≤ 10) := by
  induction nodes with
  | nil => exact fun s hw hc => ⟨hw, hc⟩
  | cons n rest ih =>
    intro s hw hc
    refine ih (tokStep use_compound s n) ?_ ?_
    · intro w hmem
      rcases tokStep_mem_words hmem with h | h
      · exact hw w h
      · exact h
    · intro c hmem
      rcases tokStep_mem_compounds hmem with h | h
      · exact hc c h
      · exact h

/-- Helper: every Strategy-A output term is either a filtered single
morpheme or (when compounds are on) a synthesized compound of length in
`(3, 10]`. -/
theorem processNodes_mem {use_compound : Bool} {nodes : List MNode} {w : String}
    (hw : w ∈ processNodes use_compound nodes) :
    (w ∉ EXCLUDE_WORDS ∧ 1 < w.length) ∨
      (use_compound = true ∧ 3 < w.length ∧ w.length ≤ 10) := by
  unfold processNodes at hw
  dsimp only at hw
  have hinv := foldl_tokStep_invariant use_compound nodes ⟨[], [], none⟩
    (by intro w h; simp at h) (by intro c h; simp at h)
  split at hw
  · rcases List.mem_append.mp hw with h | h
    · exact Or.inl (hinv.1 w h)
    · exact Or.inr (hinv.2 w (List.mem_dedup.mp h))
  · exact Or.inl (hinv.1 w hw)

/-- Helper: every Strategy-B output term passes the stop-list and length
filter. -/
theorem tokenize_fallback_mem {t : String} {w : String}
    (hw : w ∈ tokenize_fallback t) :
    w ∉ EXCLUDE_WORDS ∧ 1 < w.length := by
  unfold tokenize_fallback at hw
  rw [List.mem_filter] at hw
  simpa using hw.2

/-- Helper: case analysis of `tokenize_text` output terms over all
branches. -/
theorem tokenize_text_mem_cases {A : Analyzer} {um ma uc : Bool}
    {text : Option String} {w : String}
    (hw : w ∈ tokenize_text A um ma uc text) :
    (w ∉ EXCLUDE_WORDS ∧ 1 < w.length) ∨
      (uc = true ∧ 3 < w.length ∧ w.length ≤ 10) := by
  unfold tokenize_text at hw
  rcases text with _ | t
  · simp at hw
  · dsimp only at hw
    split at hw
    · simp at hw
    · split at hw
      · split at hw
        · split at hw
          · exact processNodes_mem hw
          · exact Or.inl (tokenize_fallback_mem hw)
        · exact Or.inl (tokenize_fallback_mem hw)
      · exact Or.inl (tokenize_fallback_mem hw)

/-- C3 (against the claim): under Strategy A with compound synthesis, a
synthesized compound is NOT checked against the stop list: for adjacent
noun morphemes `取り` + `組み`, the output of `tokenize_text` contains the
stop-listed term `取り組み`. -/
theorem tokenize_text_emits_stoplisted_compound :
    "取り組み" ∈ tokenize_text adjacentNounAnalyzer true true true (some "取り組み") ∧
    "取り組み" ∈ EXCLUDE_WORDS := by
  constructor
  · decide
  · decide

/-- C3 (amended): under either strategy every output term has length > 1;
Strategy-B terms and single-morpheme Strategy-A terms are never
stop-listed; a stop-listed output can only be a synthesized compound
(compound synthesis enabled, length in `(3, 10]`), since the compound
itself is not filtered against the stop list. -/
theorem tokenize_text_filter_amended :
    (∀ (t w : String), w ∈ tokenize_fallback t →
        w ∉ EXCLUDE_WORDS ∧ 1 < w.length) ∧
    (∀ (A : Analyzer) (um ma uc : Bool) (text : Option String) (w : String),
        w ∈ tokenize_text A um ma uc text → 1 < w.length) ∧
    (∀ (A : Analyzer) (um ma uc : Bool) (text : Option String) (w : String),
        w ∈ tokenize_text A um ma uc text → w ∈ EXCLUDE_WORDS →
        uc = true ∧ 3 < w.length ∧ w.length ≤ 10) := by
  refine ⟨fun t w hw => tokenize_fallback_mem hw, ?_, ?_⟩
  · intro A um ma uc text w hw
    rcases tokenize_text_mem_cases hw with h | h
    · exact h.2
    · omega
  · intro A um ma uc text w hw hex
    rcases tokenize_text_mem_cases hw with h | h
    · exact absurd hex h.1
    · exact h

/-- Witness for the amended C3 theorem at concrete inputs: the Strategy-B
term `デジタル` extracted from `デジタル化`, and the stop-listed compound
`取り組み` produced by the adjacent-noun analyzer. -/
theorem tokenize_text_filter_amended_witness :
    ("デジタル" ∉ EXCLUDE_WORDS ∧ 1 < "デジタル".length) ∧
    (1 < "取り組み".length) ∧
    (true = true ∧ 3 < "取り組み".length ∧ "取り組み".length ≤ 10) :=
  ⟨tokenize_text_filter_amended.1 "デジタル化" "デジタル" (by decide),
   tokenize_text_filter_amended.2.1 adjacentNounAnalyzer true true true
     (some "取り組み") "取り組み" (by decide),
   tokenize_text_filter_amended.2.2 adjacentNounAnalyzer true true true
     (some "取り組み") "取り組み" (by decide) (by decide)⟩

/-! ## Aggregator claims (C5, C6) -/

/-- Helper: folding `bump` over a duplicate-free list adds 1 to the count
of each of its members and leaves other counts unchanged. -/
theorem count_foldl_bump_nodup {α : Type} [DecidableEq α] {l : List α} (hl : l.Nodup)
    (m : PyCounter α) (t : α) :
    (l.foldl PyCounter.bump m).count t = m.count t + (if t ∈ l then 1 else 0) := by
  induction l generalizing m with
  | nil => simp
  | cons u l ih =>
    rw [List.foldl_cons, ih (List.Nodup.of_cons hl)]
    simp only [PyCounter.bump, List.mem_cons]
    by_cases h : t = u
    · subst h
      have ht : t ∉ l := (List.nodup_cons.mp hl).1
      simp [ht]
    · simp [h]

/-- Helper: the first component of a pair in `pairsOf l` is in `l`. -/
theorem fst_mem_of_mem_pairsOf {α : Type} {l : List α} {p : α × α}
    (h : p ∈ pairsOf l) : p.1 ∈ l := by
  induction l with
  | nil => simp [pairsOf] at h
  | cons x xs ih =>
    rcases List.mem_append.mp h with h | h
    · rcases List.mem_map.mp h with ⟨y, _, rfl⟩
      exact List.mem_cons_self x xs
    · exact List.mem_cons_of_mem x (ih h)

/-- Helper: membership in the index pairs of a strictly sorted list. -/
theorem mem_pairsOf_sorted {l : List String} (hs : l.Sorted (· < ·)) (a b : String) :
    (a, b) ∈ pairsOf l ↔ a ∈ l ∧ b ∈ l ∧ a < b := by
  induction l with
  | nil => simp [pairsOf]
  | cons x xs ih =>
    rw [List.sorted_cons] at hs
    constructor
    · intro h
      rcases List.mem_append.mp h with h | h
      · rcases List.mem_map.mp h with ⟨y, hy, heq⟩
        rw [Prod.mk.injEq] at heq
        obtain ⟨h1, h2⟩ := heq
        subst h1
        subst h2
        exact ⟨List.mem_cons_self _ xs, List.mem_cons_of_mem _ hy, hs.1 _ hy⟩
      · obtain ⟨ha, hb, hab⟩ := (ih hs.2).mp h
        exact ⟨List.mem_cons_of_mem x ha, List.mem_cons_of_mem x hb, hab⟩
    · rintro ⟨ha, hb, hab⟩
      rcases List.mem_cons.mp ha with h1 | h1
      · rcases List.mem_cons.mp hb with h2 | h2
        · rw [h1, h2] at hab
          exact absurd hab (lt_irrefl x)
        · subst h1
          exact List.mem_append.mpr (Or.inl (List.mem_map.mpr ⟨b, h2, rfl⟩))
      · rcases List.mem_cons.mp hb with h2 | h2
        · subst h2
          exact absurd (lt_trans hab (hs.1 a h1)) (lt_irrefl a)
        · exact List.mem_append.mpr (Or.inr ((ih hs.2).mpr ⟨h1, h2, hab⟩))

/-- Helper: the index pairs of a strictly sorted list are distinct. -/
theorem nodup_pairsOf {l : List String} (hs : l.Sorted (· < ·)) :
    (pairsOf l).Nodup := by
  induction l with
  | nil => simp [pairsOf]
  | cons x xs ih =>
    rw [List.sorted_cons] at hs
    have hxs : xs.Nodup := hs.2.nodup
    refine List.Nodup.append (List.Nodup.map ?_ hxs) (ih hs.2) ?_
    · intro y z h
      exact congrArg Prod.snd h
    · intro p hp1 hp2
      rcases List.mem_map.mp hp1 with ⟨y, _, rfl⟩
      have hx : x ∈ xs := fst_mem_of_mem_pairsOf hp2
      exact absurd (hs.1 x hx) (lt_irrefl x)

/-- Helper: the sorted deduplicated word list is strictly sorted. -/
theorem sortStrings_dedup_sorted (ws : List String) :
    (sortStrings ws.dedup).Sorted (fun a b => a < b) := by
  refine List.Sorted.lt_of_le (List.sorted_insertionSort _ _) ?_
  exact ((List.perm_insertionSort _ _).nodup_iff).mpr ws.nodup_dedup

/-- Helper: membership through sorting and dedup. -/
theorem mem_sortStrings_dedup (ws : List String) (x : String) :
    x ∈ sortStrings ws.dedup ↔ x ∈ ws :=
  ((List.perm_insertionSort _ _).mem_iff).trans List.mem_dedup

/-- Helper: a list with two distinct members has length > 1. -/
theorem one_lt_length_of_two_mem {α : Type} {l : List α} {a b : α}
    (ha : a ∈ l) (hb : b ∈ l) (hab : a ≠ b) : 1 < l.length := by
  match l with
  | [] => simp at ha
  | [x] =>
    obtain rfl := List.mem_singleton.mp ha
    obtain rfl := List.mem_singleton.mp hb
    exact absurd rfl hab
  | x :: y :: rest => simp only [List.length]; omega

/-- Helper: word-count effect of one document, tokenizer path. -/
theorem countStepTok_wordCount (acc : PyCounter String × PyCounter (String × String))
    (ws : List String) (t : String) :
    (countStepTok acc ws).1.count t = acc.1.count t + (if t ∈ ws then 1 else 0) := by
  unfold countStepTok
  split
  · rename_i h
    subst h
    simp
  · dsimp only
    rw [count_foldl_bump_nodup ws.nodup_dedup]
    simp [List.mem_dedup]

/-- Helper: word-count effect of one document, AI path. -/
theorem countStepAI_wordCount (acc : PyCounter String × PyCounter (String × String))
    (ws : List String) (t : String) :
    (countStepAI acc ws).1.count t = acc.1.count t + (if t ∈ ws then 1 else 0) := by
  unfold countStepAI
  dsimp only
  rw [count_foldl_bump_nodup ws.nodup_dedup]
  simp [List.mem_dedup]

/-- Helper: the pair key `(a, b)` is bumped by one document exactly when
`a` and `b` both occur in it and the key is strictly sorted. -/
theorem foldl_bump_pairsOf (ws : List String)
    (cc : PyCounter (String × String)) (a b : String) :
    ((pairsOf (sortStrings ws.dedup)).foldl PyCounter.bump cc).count (a, b) =
      cc.count (a, b) + (if a ∈ ws ∧ b ∈ ws ∧ a < b then 1 else 0) := by
  rw [count_foldl_bump_nodup (nodup_pairsOf (sortStrings_dedup_sorted ws))]
  congr 1
  have hiff := mem_pairsOf_sorted (sortStrings_dedup_sorted ws) a b
  simp only [mem_sortStrings_dedup] at hiff
  by_cases h : a ∈ ws ∧ b ∈ ws ∧ a < b
  · rw [if_pos (hiff.mpr h), if_pos h]
  · rw [if_neg (fun hmem => h (hiff.mp hmem)), if_neg h]

/-- Helper: pair-count effect of one document, tokenizer path. -/
theorem countStepTok_pairCount (acc : PyCounter String × PyCounter (String × String))
    (ws : List String) (a b : String) :
    (countStepTok acc ws).2.count (a, b) =
      acc.2.count (a, b) + (if a ∈ ws ∧ b ∈ ws ∧ a < b then 1 else 0) := by
  unfold countStepTok
  split
  · rename_i h
    subst h
    simp
  · dsimp only
    split
    · exact foldl_bump_pairsOf ws acc.2 a b
    · rename_i hlen
      have hcond : ¬(a ∈ ws ∧ b ∈ ws ∧ a < b) := by
        rintro ⟨ha, hb, hab⟩
        exact hlen (one_lt_length_of_two_mem (List.mem_dedup.mpr ha)
          (List.mem_dedup.mpr hb) (ne_of_lt hab))
      rw [if_neg hcond]
      omega

/-- Helper: pair-count effect of one document, AI path. -/
theorem countStepAI_pairCount (acc : PyCounter String × PyCounter (String × String))
    (ws : List String) (a b : String) :
    (countStepAI acc ws).2.count (a, b) =
      acc.2.count (a, b) + (if a ∈ ws ∧ b ∈ ws ∧ a < b then 1 else 0) := by
  unfold countStepAI
  dsimp only
  exact foldl_bump_pairsOf ws acc.2 a b

/-- Helper: word-count characterization of the whole counting fold, for
any per-document step with the standard per-document effect. -/
theorem foldl_wordCount
    {step : (PyCounter String × PyCounter (String × String)) → List String →
      (PyCounter String × PyCounter (String × String))}
    (hstep : ∀ acc ws t, (step acc ws).1.count t =
      acc.1.count t + (if t ∈ ws then 1 else 0)) :
    ∀ (docs : List (List String)) (acc : PyCounter String × PyCounter (String × String))
      (t : String),
      (docs.foldl step acc).1.count t =
        acc.1.count t + (docs.filter fun ws => decide (t ∈ ws)).length := by
  intro docs
  induction docs with
  | nil => intro acc t; simp
  | cons d docs ih =>
    intro acc t
    rw [List.foldl_cons, ih, hstep, List.filter_cons]
    by_cases h : t ∈ d
    · rw [if_pos h, if_pos (decide_eq_true h), List.length_cons]
      omega
    · rw [if_neg h, if_neg fun hd => h (of_decide_eq_true hd)]
      omega

/-- Helper: pair-count characterization of the whole counting fold. -/
theorem foldl_pairCount
    {step : (PyCounter String × PyCounter (String × String)) → List String →
      (PyCounter String × PyCounter (String × String))}
    (hstep : ∀ acc ws a b, (step acc ws).2.count (a, b) =
      acc.2.count (a, b) + (if a ∈ ws ∧ b ∈ ws ∧ a < b then 1 else 0)) :
    ∀ (docs : List (List String)) (acc : PyCounter String × PyCounter (String × String))
      (a b : String),
      (docs.foldl step acc).2.count (a, b) =
        acc.2.count (a, b) +
          (docs.filter fun ws => decide (a ∈ ws ∧ b ∈ ws ∧ a < b)).length := by
  intro docs
  induction docs with
  | nil => intro acc a b; simp
  | cons d docs ih =>
    intro acc a b
    rw [List.foldl_cons, ih, hstep, List.filter_cons]
    by_cases h : a ∈ d ∧ b ∈ d ∧ a < b
    · rw [if_pos h, if_pos (decide_eq_true h), List.length_cons]
      omega
    · rw [if_neg h, if_neg fun hd => h (of_decide_eq_true hd)]
      omega

/-- Helper: a positive filter length yields a member satisfying the
predicate. -/
theorem exists_of_filter_length_pos {α : Type} {l : List α} {p : α → Bool}
    (h : 0 < (l.filter p).length) : ∃ x ∈ l, p x = true := by
  rcases hl : l.filter p with _ | ⟨x, rest⟩
  · rw [hl] at h
    simp at h
  · have hx : x ∈ l.filter p := by
      rw [hl]
      exact List.mem_cons_self x rest
    exact ⟨x, (List.mem_filter.mp hx).1, (List.mem_filter.mp hx).2⟩

/-- C5: after aggregation, a term's document-frequency count equals exactly
the number of documents whose extracted term list contains it at least
once (multiple occurrences within one document count once, via the
per-document `list(set(words))` dedup), on the tokenizer path and on the
AI-extraction path alike. -/
theorem term_frequency_counts_documents :
    (∀ (docs : List (List String)) (t : String),
        (countPhaseTok docs).1.count t =
          (docs.filter fun ws => decide (t ∈ ws)).length) ∧
    (∀ (docs : List (List String)) (t : String),
        (countPhaseAI docs).1.count t =
          (docs.filter fun ws => decide (t ∈ ws)).length) := by
  constructor
  · intro docs t
    rw [countPhaseTok, foldl_wordCount countStepTok_wordCount]
    simp [PyCounter.empty]
  · intro docs t
    rw [countPhaseAI, foldl_wordCount countStepAI_wordCount]
    simp [PyCounter.empty]

/-- Helper: pair-count characterization for the tokenizer path from the
empty accumulator. -/
theorem countPhaseTok_pairCount (docs : List (List String)) (a b : String) :
    (countPhaseTok docs).2.count (a, b) =
      (docs.filter fun ws => decide (a ∈ ws ∧ b ∈ ws ∧ a < b)).length := by
  rw [countPhaseTok, foldl_pairCount countStepTok_pairCount]
  simp [PyCounter.empty]

/-- Helper: pair-count characterization for the AI path from the empty
accumulator. -/
theorem countPhaseAI_pairCount (docs : List (List String)) (a b : String) :
    (countPhaseAI docs).2.count (a, b) =
      (docs.filter fun ws => decide (a ∈ ws ∧ b ∈ ws ∧ a < b)).length := by
  rw [countPhaseAI, foldl_pairCount countStepAI_pairCount]
  simp [PyCounter.empty]

/-- Helper: a recorded pair key is strictly sorted (tokenizer path). -/
theorem countPhaseTok_pair_sorted {docs : List (List String)} {a b : String}
    (h : 0 < (countPhaseTok docs).2.count (a, b)) : a < b := by
  rw [countPhaseTok_pairCount] at h
  obtain ⟨ws, _, hp⟩ := exists_of_filter_length_pos h
  exact (of_decide_eq_true hp).2.2

/-- Helper: a recorded pair key is strictly sorted (AI path). -/
theorem countPhaseAI_pair_sorted {docs : List (List String)} {a b : String}
    (h : 0 < (countPhaseAI docs).2.count (a, b)) : a < b := by
  rw [countPhaseAI_pairCount] at h
  obtain ⟨ws, _, hp⟩ := exists_of_filter_length_pos h
  exact (of_decide_eq_true hp).2.2

/-- Helper: the sorted pair key of two distinct members of a document is a
strictly sorted pair of members. -/
theorem sortPair_key_of_mem {d : List String} {a b : String}
    (hne : a ≠ b) (ha : a ∈ d) (hb : b ∈ d) :
    (sortPair a b).1 ∈ d ∧ (sortPair a b).2 ∈ d ∧ (sortPair a b).1 < (sortPair a b).2 := by
  unfold sortPair
  split
  · rename_i hle
    exact ⟨ha, hb, lt_of_le_of_ne hle hne⟩
  · rename_i hnle
    exact ⟨hb, ha, lt_of_le_of_ne (le_of_not_le hnle) (Ne.symm hne)⟩

/-- C6: for every document and every pair of distinct terms present in its
deduplicated term set, the co-occurrence count under the sorted pair key
increases by exactly 1 for that document; and the table never records both
orderings of a pair (a recorded key is always strictly sorted) — on the
tokenizer path and on the AI-extraction path alike. -/
theorem cooccurrence_sorted_pair_unique :
    (∀ (docs : List (List String)) (d : List String) (a b : String),
        a ≠ b → a ∈ d → b ∈ d →
        (countPhaseTok (docs ++ [d])).2.count (sortPair a b) =
          (countPhaseTok docs).2.count (sortPair a b) + 1) ∧
    (∀ (docs : List (List String)) (a b : String),
        ¬(0 < (countPhaseTok docs).2.count (a, b) ∧
          0 < (countPhaseTok docs).2.count (b, a))) ∧
    (∀ (docs : List (List String)) (d : List String) (a b : String),
        a ≠ b → a ∈ d → b ∈ d →
        (countPhaseAI (docs ++ [d])).2.count (sortPair a b) =
          (countPhaseAI docs).2.count (sortPair a b) + 1) ∧
    (∀ (docs : List (List String)) (a b : String),
        ¬(0 < (countPhaseAI docs).2.count (a, b) ∧
          0 < (countPhaseAI docs).2.count (b, a))) := by
  refine ⟨?_, ?_, ?_, ?_⟩
  · intro docs d a b hne ha hb
    obtain ⟨h1, h2, h3⟩ := sortPair_key_of_mem hne ha hb
    rcases hp : sortPair a b with ⟨x, y⟩
    rw [hp] at h1 h2 h3
    rw [countPhaseTok_pairCount, countPhaseTok_pairCount, List.filter_append,
      List.length_append]
    have hone : (List.filter (fun ws => decide (x ∈ ws ∧ y ∈ ws ∧ x < y)) [d]).length = 1 := by
      rw [List.filter_cons, if_pos (decide_eq_true ⟨h1, h2, h3⟩)]
      rfl
    rw [hone]
  · rintro docs a b ⟨hab, hba⟩
    exact absurd (countPhaseTok_pair_sorted hba) (lt_asymm (countPhaseTok_pair_sorted hab))
  · intro docs d a b hne ha hb
    obtain ⟨h1, h2, h3⟩ := sortPair_key_of_mem hne ha hb
    rcases hp : sortPair a b with ⟨x, y⟩
    rw [hp] at h1 h2 h3
    rw [countPhaseAI_pairCount, countPhaseAI_pairCount, List.filter_append,
      List.length_append]
    have hone : (List.filter (fun ws => decide (x ∈ ws ∧ y ∈ ws ∧ x < y)) [d]).length = 1 := by
      rw [List.filter_cons, if_pos (decide_eq_true ⟨h1, h2, h3⟩)]
      rfl
    rw [hone]
  · rintro docs a b ⟨hab, hba⟩
    exact absurd (countPhaseAI_pair_sorted hba) (lt_asymm (countPhaseAI_pair_sorted hab))

/-- Witness for C6 at concrete inputs: adding the document
`["給食", "食育"]` to the corpus `[["食育"]]` bumps the sorted pair key
exactly once, and the table never holds both orderings. -/
theorem cooccurrence_sorted_pair_unique_witness :
    (countPhaseTok ([["食育"]] ++ [["給食", "食育"]])).2.count (sortPair "食育" "給食") =
      (countPhaseTok [["食育"]]).2.count (sortPair "食育" "給食") + 1 ∧
    ¬(0 < (countPhaseTok [["食育"], ["給食", "食育"]]).2.count ("給食", "食育") ∧
      0 < (countPhaseTok [["食育"], ["給食", "食育"]]).2.count ("食育", "給食")) :=
  ⟨cooccurrence_sorted_pair_unique.1 [["食育"]] ["給食", "食育"] "食育" "給食"
      (by decide) (by decide) (by decide),
   cooccurrence_sorted_pair_unique.2.1 [["食育"], ["給食", "食育"]] "給食" "食育"⟩

/-! ## Network-builder claims (C2, C7) -/

/-- C2 (against the claim): called with an empty word-count table and empty
vocabulary, the network builder returns the EMPTY statistics dict `{}`
(line 563), not a record whose `num_nodes` … `density` fields are zero:
the returned dict has no `num_nodes` entry at all, and it differs from the
zeroed statistics dict the no-nodes guard would return. -/
theorem create_cooccurrence_network_empty_stats_dict :
    (@create_cooccurrence_network Unit (fun _ => []) (fun _ _ => [])
        [] [] []).2.1 = [] ∧
    ((@create_cooccurrence_network Unit (fun _ => []) (fun _ _ => [])
        [] [] []).2.1.find? fun p => decide (p.1 = "num_nodes")) = none ∧
    (@create_cooccurrence_network Unit (fun _ => []) (fun _ _ => [])
        [] [] []).2.1 ≠ zeroStats := by
  refine ⟨rfl, rfl, ?_⟩
  intro h
  simp [create_cooccurrence_network, zeroStats] at h

/-- C2 (amended): the aggregator returns three empty structures on an empty
document set, and the network builder, on an empty word-count table or
empty vocabulary, returns no renderable primitives, an EMPTY statistics
dict (the zeroed statistics record is produced only by the later
no-nodes guard), an empty graph and an empty partition — in both cases
without raising. -/
theorem empty_inputs_return_empty_structures :
    (∀ (extract : List (Option String) → List (List String))
        (selectTop : List (String × Nat) → List (String × Nat)) (mc tn : Nat),
        calculate_cooccurrence extract selectTop [] mc tn = ([], [], [])) ∧
    (∀ (Trace : Type) (cd : NXGraph → List (String × Nat))
        (render : NXGraph → List (String × Nat) → List Trace)
        (wc : List (String × Nat)) (cooc : List ((String × String) × Nat))
        (tw : List String),
        wc = [] ∨ tw = [] →
        create_cooccurrence_network cd render wc cooc tw =
          ([], [], NXGraph.mk [] [], [])) := by
  constructor
  · intro extract selectTop mc tn
    rfl
  · intro Trace cd render wc cooc tw h
    unfold create_cooccurrence_network
    rw [if_pos h]

/-- Witness for the amended C2 theorem at concrete empty inputs. -/
theorem empty_inputs_return_empty_structures_witness :
    @create_cooccurrence_network Unit (fun _ => []) (fun _ _ => [])
        [] [(("a", "b"), 3)] ["a"] = ([], [], NXGraph.mk [] [], []) :=
  empty_inputs_return_empty_structures.2 Unit (fun _ => []) (fun _ _ => [])
    [] [(("a", "b"), 3)] ["a"] (Or.inl rfl)

/-- C7: for every co-occurrence entry whose endpoints are both in the
word-count table, the builder adds the corresponding edge; its weight is
`count / (freq1 + freq2 - count)` when that denominator is positive and
`0` when it is ≤ 0 (total — no division error is possible), and whenever
both frequencies are positive and `count ≤ min(freq1, freq2)` the weight
lies in `[0, 1]`. -/
theorem network_edge_weight_safe_bounded
    (wc : List (String × Nat)) (cooc : List ((String × String) × Nat))
    (w1 w2 : String) (cnt f1 f2 : Nat)
    (hmem : ((w1, w2), cnt) ∈ cooc)
    (h1 : lookupCount wc w1 = some f1) (h2 : lookupCount wc w2 = some f2) :
    (EdgeData.mk w1 w2 (edgeWeight f1 f2 cnt) cnt ∈ buildEdges wc cooc) ∧
    ((f1 : ℤ) + (f2 : ℤ) - (cnt : ℤ) ≤ 0 → edgeWeight f1 f2 cnt = 0) ∧
    (0 < (f1 : ℤ) + (f2 : ℤ) - (cnt : ℤ) →
      edgeWeight f1 f2 cnt = (cnt : ℚ) / ((f1 : ℚ) + (f2 : ℚ) - (cnt : ℚ))) ∧
    (0 < f1 → 0 < f2 → cnt ≤ min f1 f2 →
      0 ≤ edgeWeight f1 f2 cnt ∧ edgeWeight f1 f2 cnt ≤ 1) := by
  refine ⟨?_, ?_, ?_, ?_⟩
  · refine List.mem_filterMap.mpr ⟨((w1, w2), cnt), hmem, ?_⟩
    dsimp only
    rw [h1, h2]
  · intro hle
    rw [edgeWeight, if_neg (not_lt.mpr hle)]
  · intro hpos
    rw [edgeWeight, if_pos hpos]
  · intro hf1 hf2 hcnt
    have hc1 : cnt ≤ f1 := le_trans hcnt (min_le_left f1 f2)
    have hc2 : cnt ≤ f2 := le_trans hcnt (min_le_right f1 f2)
    have hden : (0 : ℚ) < (f1 : ℚ) + (f2 : ℚ) - (cnt : ℚ) := by
      have : cnt < f1 + f2 := by omega
      have hq : (cnt : ℚ) < (f1 : ℚ) + (f2 : ℚ) := by exact_mod_cast this
      linarith
    have hpos : 0 < (f1 : ℤ) + (f2 : ℤ) - (cnt : ℤ) := by omega
    rw [edgeWeight, if_pos hpos]
    constructor
    · exact div_nonneg (by positivity) (le_of_lt hden)
    · rw [div_le_one hden]
      have hq1 : (cnt : ℚ) ≤ (f1 : ℚ) := by exact_mod_cast hc1
      have hq2 : (cnt : ℚ) ≤ (f2 : ℚ) := by exact_mod_cast hc2
      have hcq : (0 : ℚ) < (f2 : ℚ) := by exact_mod_cast hf2
      linarith

/-- Witness for C7 at a concrete graph: the pair `("a","b")` with count 1
and frequencies 2 and 3. -/
theorem network_edge_weight_safe_bounded_witness :
    (EdgeData.mk "a" "b" (edgeWeight 2 3 1) 1 ∈
      buildEdges [("a", 2), ("b", 3)] [(("a", "b"), 1)]) ∧
    ((2 : ℤ) + (3 : ℤ) - (1 : ℤ) ≤ 0 → edgeWeight 2 3 1 = 0) ∧
    (0 < (2 : ℤ) + (3 : ℤ) - (1 : ℤ) →
      edgeWeight 2 3 1 = (1 : ℚ) / ((2 : ℚ) + (3 : ℚ) - (1 : ℚ))) ∧
    (0 < 2 → 0 < 3 → 1 ≤ min 2 3 →
      0 ≤ edgeWeight 2 3 1 ∧ edgeWeight 2 3 1 ≤ 1) :=
  network_edge_weight_safe_bounded [("a", 2), ("b", 3)] [(("a", "b"), 1)]
    "a" "b" 1 2 3 (List.mem_singleton.mpr rfl) rfl rfl

/-! ## Search-query claims (C8, C10) -/

/-- Helper: a successful prefix test gives an infix. -/
theorem isInfix_of_isPrefixOf {kw l : List Char} (h : kw.isPrefixOf l = true) :
    List.IsInfix kw l := by
  obtain ⟨t, ht⟩ := List.isPrefixOf_iff_prefix.mp h
  exact ⟨[], t, by simpa using ht⟩

/-- Helper: an infix of the tail is an infix. -/
theorem isInfix_cons_of_isInfix {kw rest : List Char} {c : Char}
    (h : List.IsInfix kw rest) : List.IsInfix kw (c :: rest) := by
  obtain ⟨s, t, hst⟩ := h
  exact ⟨c :: s, t, by simp [hst]⟩

/-- Helper: a positive `\bKW\b` match count means the literal occurs as a
substring. -/
theorem isInfix_of_countExactAux_pos {kw : List Char} :
    ∀ {cs : List Char} {prev : Option Char} {skip : Nat},
      0 < countExactAux kw prev skip cs → List.IsInfix kw cs := by
  intro cs
  induction cs with
  | nil =>
    intro prev skip h
    simp [countExactAux] at h
  | cons c rest ih =>
    intro prev skip h
    cases skip with
    | succ n => exact isInfix_cons_of_isInfix (ih h)
    | zero =>
      rw [countExactAux] at h
      split at h
      · rename_i hm
        have hpre : kw.isPrefixOf (c :: rest) = true := by
          simp only [matchAt, Bool.and_eq_true] at hm
          exact hm.1.1
        exact isInfix_of_isPrefixOf hpre
      · exact isInfix_cons_of_isInfix (ih h)

/-- Helper: no substring occurrence, no exact-match count. -/
theorem pyCountExact_eq_zero_of_not_contains {text kw : String}
    (h : pyContains text kw = false) : pyCountExact text kw = 0 := by
  unfold pyCountExact
  split
  · rfl
  · by_contra hne
    have hpos : 0 < countExactAux kw.toList none 0 text.toList := Nat.pos_of_ne_zero hne
    have : pyContains text kw = true :=
      decide_eq_true (isInfix_of_countExactAux_pos hpos)
    rw [h] at this
    exact Bool.false_ne_true this

/-- C8 (against the claim): the exact sub-terms of `"食育" AND "給食"` are
matched with regex word boundaries, which never fire inside a run of
Japanese word characters: the document `学校給食における食育の推進`
contains both 食育 and 給食 as substrings, yet `count_keyword_occurrences`
yields `keyword_count = 0` and `has_keyword = false` for it. -/
theorem and_query_contains_both_but_no_match :
    pyContains "学校給食における食育の推進" "食育" = true ∧
    pyContains "学校給食における食育の推進" "給食" = true ∧
    count_keyword_occurrences
        [("content_text", [Cell.strC (some "学校給食における食育の推進")])]
        "\"食育\" AND \"給食\"" =
      some [("content_text", [Cell.strC (some "学校給食における食育の推進")]),
            ("keyword_count", [Cell.natC 0]),
            ("has_keyword", [Cell.boolC false])] := by
  refine ⟨by decide, by decide, by decide⟩

/-- C8 (amended): for the query `"食育" AND "給食"`, a document in which
both quoted words occur at word-boundary positions (here separated by a
space) yields `has_keyword = true` with the summed count; and for every
document that does not even contain 給食 as a substring — in particular
one containing only 食育 — the AND condition forces `has_keyword = false`
and `keyword_count = 0` (zero, not the partial per-sub-term sum). -/
theorem and_query_boundary_match_and_forced_zero :
    (count_keyword_occurrences
        [("content_text", [Cell.strC (some "食育 給食")])]
        "\"食育\" AND \"給食\"" =
      some [("content_text", [Cell.strC (some "食育 給食")]),
            ("keyword_count", [Cell.natC 2]),
            ("has_keyword", [Cell.boolC true])]) ∧
    (∀ text : String, pyContains text "給食" = false →
        rowKeyword (parse_search_query "\"食育\" AND \"給食\"").1
          (parse_search_query "\"食育\" AND \"給食\"").2 text = (0, false)) := by
  constructor
  · decide
  · intro text h
    have hparse : parse_search_query "\"食育\" AND \"給食\"" =
        (SearchKind.AND, [(MatchKind.exactKw, "食育"), (MatchKind.exactKw, "給食")]) := by
      decide
    rw [hparse]
    have hz : countFor MatchKind.exactKw text "給食" = 0 :=
      pyCountExact_eq_zero_of_not_contains h
    simp [rowKeyword, hz]

/-- Witness for the amended C8 theorem: the document `食育のみの文書`
contains only 食育, so the AND query forces `(0, false)`. -/
theorem and_query_boundary_match_and_forced_zero_witness :
    rowKeyword (parse_search_query "\"食育\" AND \"給食\"").1
      (parse_search_query "\"食育\" AND \"給食\"").2 "食育のみの文書" = (0, false) :=
  and_query_boundary_match_and_forced_zero.2 "食育のみの文書" (by decide)

/-- Helper: assigning a fresh column appends it. -/
theorem setCol_of_hasCol_false {df : Table} {name : String} {col : List Cell}
    (h : hasCol df name = false) : setCol df name col = df ++ [(name, col)] := by
  unfold setCol
  simp [h]

/-- Helper: column existence across an appended single column. -/
theorem hasCol_append_single {df : Table} {n2 name : String} {col : List Cell} :
    hasCol (df ++ [(n2, col)]) name = (hasCol df name || decide (n2 = name)) := by
  simp [hasCol, List.any_append]

/-- Helper: dropping an absent column is the identity. -/
theorem filter_ne_of_hasCol_false {df : Table} {name : String}
    (h : hasCol df name = false) :
    List.filter (fun p => decide (p.1 ≠ name)) df = df := by
  rw [List.filter_eq_self]
  intro p hp
  unfold hasCol at h
  rw [List.any_eq_false] at h
  have hne := h p hp
  simp at hne ⊢
  exact hne

/-- C10 (against the claim): an input table that already has a
`content_text_safe` column does NOT keep all its columns — the function
overwrites that column with its temporary and then drops it, so the
output lacks a column the input had. -/
theorem count_keyword_occurrences_loses_safe_column :
    getCol [("content_text", [Cell.strC (some "x")]),
            ("content_text_safe", [Cell.strC (some "y")])] "content_text_safe" =
      some [Cell.strC (some "y")] ∧
    count_keyword_occurrences
        [("content_text", [Cell.strC (some "x")]),
         ("content_text_safe", [Cell.strC (some "y")])] "a" =
      some [("content_text", [Cell.strC (some "x")]),
            ("keyword_count", [Cell.natC 0]),
            ("has_keyword", [Cell.boolC false])] ∧
    getCol [("content_text", [Cell.strC (some "x")]),
            ("keyword_count", [Cell.natC 0]),
            ("has_keyword", [Cell.boolC false])] "content_text_safe" = none := by
  refine ⟨by decide, by decide, by decide⟩

/-- C10 (amended): for every input table that has a `content_text` column
and none of the three reserved column names (`content_text_safe`,
`keyword_count`, `has_keyword`), `count_keyword_occurrences` returns the
input columns unchanged and in order, plus exactly the two new columns
`keyword_count` and `has_keyword` (the temporary `content_text_safe`
column is dropped before returning). -/
theorem count_keyword_occurrences_frame_amended
    (df : Table) (q : String) (ct : List Cell)
    (hct : getCol df "content_text" = some ct)
    (h1 : hasCol df "content_text_safe" = false)
    (h2 : hasCol df "keyword_count" = false)
    (h3 : hasCol df "has_keyword" = false) :
    count_keyword_occurrences df q =
      some (df ++
        [("keyword_count",
          ((ct.map fillnaEmpty).map textOf).map fun t =>
            Cell.natC (rowKeyword (parse_search_query q).1 (parse_search_query q).2 t).1),
         ("has_keyword",
          ((ct.map fillnaEmpty).map textOf).map fun t =>
            Cell.boolC (rowKeyword (parse_search_query q).1 (parse_search_query q).2 t).2)]) := by
  unfold count_keyword_occurrences
  rw [hct]
  dsimp only
  have hkc : hasCol (df ++ [("content_text_safe", ct.map fillnaEmpty)])
      "keyword_count" = false := by
    rw [hasCol_append_single, h2]
    rfl
  have hhk : ∀ kcCol : List Cell,
      hasCol ((df ++ [("content_text_safe", ct.map fillnaEmpty)]) ++
        [("keyword_count", kcCol)]) "has_keyword" = false := by
    intro kcCol
    rw [hasCol_append_single, hasCol_append_single, h3]
    rfl
  rw [setCol_of_hasCol_false h1, setCol_of_hasCol_false hkc,
    setCol_of_hasCol_false (hhk _)]
  have hdf := filter_ne_of_hasCol_false h1
  simp only [dropCol, List.filter_append, hdf, List.filter_cons, List.filter_nil]
  simp [List.append_assoc]

/-- Witness for the amended C10 theorem at a one-row table whose text cell
is NaN. -/
theorem count_keyword_occurrences_frame_amended_witness :
    count_keyword_occurrences [("content_text", [Cell.strC none])] "x" =
      some ([("content_text", [Cell.strC none])] ++
        [("keyword_count",
          (([Cell.strC none].map fillnaEmpty).map textOf).map fun t =>
            Cell.natC (rowKeyword (parse_search_query "x").1 (parse_search_query "x").2 t).1),
         ("has_keyword",
          (([Cell.strC none].map fillnaEmpty).map textOf).map fun t =>
            Cell.boolC (rowKeyword (parse_search_query "x").1 (parse_search_query "x").2 t).2)]) :=
  count_keyword_occurrences_frame_amended [("content_text", [Cell.strC none])] "x"
    [Cell.strC none] rfl rfl rfl rfl

end KeywordCount
